import Mathlib

set_option maxRecDepth 16384

/-!
Verification of the djiga-field-extractor core (src/app/page.tsx) against its
specification.  The TypeScript source is shallowly embedded: JS numbers that
the program only ever treats as integers are modelled as `Int`/`Nat` with an
explicit decimal rendering, JS `undefined`/optional values as `Option`, the
React `downloadItems` state as a `List DownloadItem` threaded explicitly, and
the network as an explicit `FetchOutcome` oracle.  Template-literal
interpolation of a possibly-absent value renders `undefined` as the string
"undefined", and the JS falsy-`||` idiom is modelled by `jsOrStr` (strings:
empty string is falsy) and `Option.getD` (integers: 0 stays 0 either way).
-/

namespace DFE

/-! ## Decimal rendering of JS numbers (template literal interpolation) -/

/-- Decimal string of a natural number
(the rendering JS template literals use for integral numbers). -/
def natToString (n : Nat) : String := Nat.repr n

/-- Decimal string of an integer, as a JS template literal renders it. -/
def intToString (i : Int) : String := Int.repr i

/-! ## Substring occurrence counting -/

/-- Number of (possibly overlapping) occurrences of `p` in `l`:
one per position of `l` at which `p` is a prefix of the remaining suffix. -/
def countOcc (p : List Char) : List Char → Nat
  | [] => 0
  | c :: rest => (if p.isPrefixOf (c :: rest) then 1 else 0) + countOcc p rest

/-- Occurrences of the string `pat` inside the string `s`. -/
def countOccStr (pat s : String) : Nat := countOcc pat.data s.data

/-- `a` admits no occurrence of `p` that starts inside `a` and would have to
continue past its end: every suffix of `a` that begins an occurrence of `p`
is long enough to contain it whole.  Appending anything to the right of such
an `a` cannot create new occurrences straddling the boundary. -/
def SafeLeft (p a : List Char) : Prop :=
  ∀ i, i < a.length → (a.drop i).isPrefixOf p = true → p.length ≤ (a.drop i).length

instance (p a : List Char) : Decidable (SafeLeft p a) := by
  unfold SafeLeft; infer_instance

/-- The string `s` contains no literal markup-opening character. -/
def LtFree (s : String) : Prop := ∀ c ∈ s.data, c ≠ '<'

instance (s : String) : Decidable (LtFree s) := by
  unfold LtFree; infer_instance

/-! ## Filename sanitizer (page.tsx lines 65-70)

`sanitizeFilename` chains three JS string operations:
`.replace(/[<>:"/\\|?*]/g, '_')`, `.replace(/\s+/g, '_')`, `.trim()`. -/

/-- Characters of the invalid-character class `[<>:"/\\|?*]`. -/
def isInvalidChar (c : Char) : Bool :=
  c = '<' || c = '>' || c = ':' || c = '"' || c = '/' || c = '\\' ||
  c = '|' || c = '?' || c = '*'

/-- The JS regex `\s` / `String.prototype.trim` whitespace class. -/
def isJsWhitespace (c : Char) : Bool :=
  c = ' ' || c = '\t' || c = '\n' || c.val = 0x0b || c.val = 0x0c ||
  c = '\r' || c.val = 0xa0 || c.val = 0x1680 ||
  (0x2000 ≤ c.val && c.val ≤ 0x200a) ||
  c.val = 0x2028 || c.val = 0x2029 || c.val = 0x202f || c.val = 0x205f ||
  c.val = 0x3000 || c.val = 0xfeff

/-- `.replace(/[<>:"/\\|?*]/g, '_')`. -/
def replaceInvalid (l : List Char) : List Char :=
  l.map (fun c => if isInvalidChar c then '_' else c)

/-- `.replace(/\s+/g, '_')`: each maximal whitespace run becomes one `'_'`.
The flag records whether the previous character was inside a run already
replaced. -/
def collapseWs : List Char → Bool → List Char
  | [], _ => []
  | c :: rest, inRun =>
    if isJsWhitespace c then
      if inRun then collapseWs rest true else '_' :: collapseWs rest true
    else c :: collapseWs rest false

/-- `.trim()`: strip leading and trailing JS whitespace. -/
def trimChars (l : List Char) : List Char :=
  ((l.dropWhile isJsWhitespace).reverse.dropWhile isJsWhitespace).reverse

/-- page.tsx `sanitizeFilename`. -/
def sanitizeFilename (filename : String) : String :=
  ⟨trimChars (collapseWs (replaceInvalid filename.data) false)⟩

/-! ## GeoJSON data model (page.tsx interfaces, lines 33-48)

`coordinates: number[][][] | number[][]` is the TS union; both arms are kept.
The code casts it according to `geometry.type`, so a mismatched arm is
iterated at the wrong depth — the embedding reproduces the resulting JS
behaviour (indexing a number yields `undefined`; interpolating an array joins
its elements with commas). -/

/-- The two arms of the TS coordinates union type. -/
inductive Coords where
  /-- `number[][][]`: a list of rings, each ring a list of positions. -/
  | rings (r : List (List (List Int)))
  /-- `number[][]`: a flat list of positions. -/
  | pts (p : List (List Int))
deriving DecidableEq

/-- `GeoJsonFeature.properties`. -/
structure FeatureProperties where
  name : Option String
  funcType : Option String
deriving DecidableEq

/-- `GeoJsonFeature.geometry`. -/
structure GeoGeometry where
  type : String
  coordinates : Coords
deriving DecidableEq

/-- One GeoJSON feature.  `geometry` is `Option` because the converter
guards on `feature.geometry &&` (null geometry is legal GeoJSON). -/
structure GeoJsonFeature where
  type : String
  geometry : Option GeoGeometry
  properties : Option FeatureProperties
deriving DecidableEq

/-- A parsed GeoJSON document. -/
structure GeoJsonData where
  type : String
  features : List GeoJsonFeature
deriving DecidableEq

/-! ## GeoJSON → KML converter (page.tsx `convertGeoJsonToKml`, lines 73-130) -/

/-- `${v}` for `v : number | undefined`. -/
def renderOptInt : Option Int → String
  | none => "undefined"
  | some n => intToString n

/-- `${a}` for a JS number array: elements joined by commas. -/
def renderIntList : List Int → String
  | [] => ""
  | [x] => intToString x
  | x :: rest => intToString x ++ "," ++ renderIntList rest

/-- `${v}` for `v : number[] | undefined`. -/
def renderOptIntList : Option (List Int) → String
  | none => "undefined"
  | some l => renderIntList l

/-- `s || fallback` for a possibly-absent JS string: absent and the empty
string are falsy. -/
def jsOrStr (v : Option String) (fallback : String) : String :=
  match v with
  | none => fallback
  | some s => if s = "" then fallback else s

/-- `${coord[0]},${coord[1]},${coord[2] || 0}` where `coord : number[]`. -/
def coordTriple (coord : List Int) : String :=
  renderOptInt (coord.get? 0) ++ "," ++ renderOptInt (coord.get? 1) ++ "," ++
    intToString ((coord.get? 2).getD 0)

/-- `${coord[0]},${coord[1]},${coord[2] || 0}` where `coord : number[][]`
(a MultiPoint feature whose coordinates use the nested union arm): a present
component is an array, hence truthy, and joins with commas. -/
def coordTripleNested (coord : List (List Int)) : String :=
  renderOptIntList (coord.get? 0) ++ "," ++ renderOptIntList (coord.get? 1) ++ "," ++
    (match coord.get? 2 with
     | some l => renderIntList l
     | none => "0")

/-- One polygon-boundary line (line 99) for a position `coord : number[]`. -/
def coordLineOfList (coord : List Int) : String :=
  "              " ++ coordTriple coord ++ "\n"

/-- One polygon-boundary line when the outer "ring" is actually a flat
`number[]` (Polygon type tag on the flat union arm): indexing a JS number
gives `undefined`, and `undefined || 0` is `0`. -/
def coordLineOfNum (_coord : Int) : String :=
  "              undefined,undefined,0\n"

/-- `outerRing.forEach(coord => kml += line)` over a real ring. -/
def ringLines : List (List Int) → String
  | [] => ""
  | c :: rest => coordLineOfList c ++ ringLines rest

/-- The same loop when the "ring" is a flat list of numbers. -/
def fakeRingLines : List Int → String
  | [] => ""
  | c :: rest => coordLineOfNum c ++ fakeRingLines rest

/-- Lines 96-101: `if (coordinates && coordinates[0])` — an array is always
truthy, `coordinates[0]` is truthy iff it exists — then iterate the first
element as the outer ring. -/
def polygonCoordLines : Coords → String
  | .rings r =>
    match r.head? with
    | some ring => ringLines ring
    | none => ""
  | .pts p =>
    match p.head? with
    | some ring => fakeRingLines ring
    | none => ""

/-- Lines 84-108: the placemark emitted for one Polygon feature. -/
def polygonPlacemark (name : String) (index : Nat) (f : GeoJsonFeature)
    (g : GeoGeometry) : String :=
  "    <Placemark>\n      <name>" ++
    jsOrStr (f.properties.bind FeatureProperties.name)
      (name ++ " - Area " ++ natToString (index + 1)) ++
  "</name>\n      <description>" ++
    jsOrStr (f.properties.bind FeatureProperties.funcType) "Polygon area" ++
  "</description>\n      <Polygon>\n        <extrude>1</extrude>\n        <altitudeMode>clampToGround</altitudeMode>\n        <outerBoundaryIs>\n          <LinearRing>\n            <coordinates>\n" ++
    polygonCoordLines g.coordinates ++
  "            </coordinates>\n          </LinearRing>\n        </outerBoundaryIs>\n      </Polygon>\n    </Placemark>\n"

/-- Lines 113-120: the placemark emitted for one MultiPoint coordinate. -/
def pointPlacemark (pointIndex : Nat) (coordStr : String) : String :=
  "    <Placemark>\n      <name>Reference Point " ++ natToString (pointIndex + 1) ++
  "</name>\n      <description>Reference point</description>\n      <Point>\n        <coordinates>" ++
    coordStr ++
  "</coordinates>\n      </Point>\n    </Placemark>\n"

/-- `coordinates.forEach((coord, pointIndex) => ...)` accumulation. -/
def pointsKml {α : Type} (render : α → String) : Nat → List α → String
  | _, [] => ""
  | i, c :: rest => pointPlacemark i (render c) ++ pointsKml render (i + 1) rest

/-- Lines 109-122: the MultiPoint branch, over either union arm. -/
def multiPointPlacemarks : Coords → String
  | .pts p => pointsKml coordTriple 0 p
  | .rings r => pointsKml coordTripleNested 0 r

/-- The body contribution of one feature (the forEach callback,
lines 82-123). -/
def featureChunk (name : String) (index : Nat) (f : GeoJsonFeature) : String :=
  match f.geometry with
  | none => ""
  | some g =>
    if g.type = "Polygon" then polygonPlacemark name index f g
    else if g.type = "MultiPoint" then multiPointPlacemarks g.coordinates
    else ""

/-- `geoJson.features.forEach((feature, index) => ...)` accumulation. -/
def featuresKml (name : String) : Nat → List GeoJsonFeature → String
  | _, [] => ""
  | i, f :: rest => featureChunk name i f ++ featuresKml name (i + 1) rest

/-- page.tsx `convertGeoJsonToKml`: header, optional feature body (only for
`FeatureCollection` documents), footer. -/
def convertGeoJsonToKml (geoJson : GeoJsonData) (name : String) : String :=
  "<?xml version=\"1.0\" encoding=\"UTF-8\"?>\n<kml xmlns=\"http://www.opengis.net/kml/2.2\">\n  <Document>\n    <name>" ++
  name ++
  "</name>\n    <description>Converted from GeoJSON</description>\n" ++
  (if geoJson.type = "FeatureCollection" then featuresKml name 0 geoJson.features
   else "") ++
  "  </Document>\n</kml>"

/-! ## Placemark counting helpers -/

/-- A feature rendered by the Polygon branch. -/
def isPolygonFeature (f : GeoJsonFeature) : Bool :=
  match f.geometry with
  | some g => g.type == "Polygon"
  | none => false

/-- How many elements the MultiPoint branch iterates over. -/
def coordsTopLen : Coords → Nat
  | .rings r => r.length
  | .pts p => p.length

/-- Points contributed by a feature through the MultiPoint branch. -/
def multiPointLen (f : GeoJsonFeature) : Nat :=
  match f.geometry with
  | some g =>
    if g.type = "Polygon" then 0
    else if g.type = "MultiPoint" then coordsTopLen g.coordinates
    else 0
  | none => 0

/-- P: the number of Polygon features of a document. -/
def polyCount (doc : GeoJsonData) : Nat :=
  (doc.features.filter isPolygonFeature).length

/-- K: the total number of points of the MultiPoint features of a document. -/
def multiPointTotal (doc : GeoJsonData) : Nat :=
  (doc.features.map multiPointLen).sum

/-- Placemarks emitted for one feature: 1 for a Polygon, one per point for a
MultiPoint, 0 otherwise. -/
def featurePlacemarkCount (f : GeoJsonFeature) : Nat :=
  if isPolygonFeature f then 1 else multiPointLen f

/-- The characters of the placemark-opening tag. -/
def pmTail : List Char := "Placemark>".data

/-- The placemark-opening tag, as a character list headed by `'<'`. -/
def pmChars : List Char := '<' :: pmTail

/-- Neither optional property string contains a literal `'<'`. -/
def optLtFree : Option String → Prop
  | none => True
  | some s => LtFree s

instance (v : Option String) : Decidable (optLtFree v) := by
  cases v <;> (unfold optLtFree; infer_instance)

/-- The interpolated property strings of a feature contain no `'<'`. -/
def PropsLtFree (f : GeoJsonFeature) : Prop :=
  optLtFree (f.properties.bind FeatureProperties.name) ∧
  optLtFree (f.properties.bind FeatureProperties.funcType)

instance (f : GeoJsonFeature) : Decidable (PropsLtFree f) := by
  unfold PropsLtFree; infer_instance

/-! ## Pasted-input parser (page.tsx `generateDownloadLinks`, lines 132-150)

The pasted text goes through `JSON.parse` and untyped property access.  The
input is modelled as `Option Json`: `none` when `JSON.parse` itself throws,
`some j` for the parsed document.  Property access on `undefined`/`null`
throws a TypeError (`Except.error`), on any other value it yields the
property or `undefined`. -/

/-- Parsed JSON values. -/
inductive Json where
  | obj (fields : List (String × Json))
  | arr (elems : List Json)
  | str (s : String)
  | num (n : Int)
  | bool (b : Bool)
  | null

/-- Object field lookup; `JSON.parse` keeps the last duplicate key, so the
lookup is right-biased. -/
def lookupField (fields : List (String × Json)) (key : String) : Option Json :=
  (fields.reverse.find? (fun p => p.1 == key)).map (fun p => p.2)

/-- JS property access `v[key]`: throws on `undefined` and `null`, yields the
field of an object, and `undefined` on any other value. -/
def jsGet (v : Option Json) (key : String) : Except Unit (Option Json) :=
  match v with
  | none => .error ()
  | some .null => .error ()
  | some (.obj fields) => .ok (lookupField fields key)
  | some _ => .ok none

/-- `v.map(...)`: only an actual array can be iterated; `.map` on
`undefined`/`null` throws, and a parsed JSON value is never a function, so
`.map` on any non-array throws as well. -/
def jsArrayElems (v : Option Json) : Except Unit (List Json) :=
  match v with
  | some (.arr elems) => .ok elems
  | _ => .error ()

/-- page.tsx `DownloadItem`.  `uuid`/`name`/`signedURL` hold whatever JS
values the untyped parse produced (`none` = `undefined`); `geoJson`,
`isLoading` and `error` are the optional per-item fetch state. -/
structure DownloadItem where
  uuid : Option Json
  name : Option Json
  signedURL : Option Json
  geoJson : Option GeoJsonData
  isLoading : Option Bool
  error : Option String

/-- Lines 137-141: build one `DownloadItem` from one edge.  Each access chain
can throw; a missing leaf (`uuid`, `name`, `signedURL`) merely yields
`undefined`. -/
def buildOne (edge : Json) : Except Unit DownloadItem := do
  let node ← jsGet (some edge) "node"
  let uuid ← jsGet node "uuid"
  let name ← jsGet node "name"
  let geometry ← jsGet node "geometry"
  let storage ← jsGet geometry "storage"
  let signedURL ← jsGet storage "signedURL"
  .ok { uuid := uuid, name := name, signedURL := signedURL,
        geoJson := none, isLoading := none, error := none }

/-- `edges.map(edge => ...)`, elementwise and in order, any throw aborting
the whole map. -/
def buildItemsFromEdges : List Json → Except Unit (List DownloadItem)
  | [] => .ok []
  | e :: rest => do
    let it ← buildOne e
    let rs ← buildItemsFromEdges rest
    .ok (it :: rs)

/-- The try-block of `generateDownloadLinks`:
`JSON.parse(inputText).data.lands.edges.map(...)`. -/
def parseResponse (input : Option Json) : Except Unit (List DownloadItem) :=
  match input with
  | none => .error ()
  | some j => do
    let d ← jsGet (some j) "data"
    let lands ← jsGet d "lands"
    let edges ← jsGet lands "edges"
    let edgeList ← jsArrayElems edges
    buildItemsFromEdges edgeList

/-- page.tsx `generateDownloadLinks`: on success the registry is replaced
wholesale; on any throw the catch alerts once (second component `true`) and
the registry is left untouched.  (`isGenerating` is set and then reset in the
`finally`, a net no-op on the modelled state.) -/
def generateDownloadLinks (input : Option Json) (current : List DownloadItem) :
    List DownloadItem × Bool :=
  match parseResponse input with
  | .ok items => (items, false)
  | .error _ => (current, true)

/-! ## Fetch orchestrator (page.tsx `fetchGeoJsonData`, lines 152-192) -/

/-- `prev.map((prevItem, i) => ...)` with the element index, starting at
`start`. -/
def mapIdxFrom {α : Type} (f : Nat → α → α) : Nat → List α → List α
  | _, [] => []
  | start, a :: rest => f start a :: mapIdxFrom f (start + 1) rest

/-- `prev.map((prevItem, i) => ...)`. -/
def listMapIdx {α : Type} (f : Nat → α → α) (l : List α) : List α :=
  mapIdxFrom f 0 l

/-- Lines 157-159: mark the item at `index` as loading and clear its error. -/
def setLoading (items : List DownloadItem) (index : Nat) : List DownloadItem :=
  listMapIdx
    (fun i prevItem =>
      if i = index then { prevItem with isLoading := some true, error := none }
      else prevItem)
    items

/-- The outcome of the single proxy round-trip, decided by the environment:
a 200 response with a payload, a non-ok response whose JSON body may carry an
`error` field, or a throw (network failure, or a body that was not JSON) with
the thrown error's message (`none` when a non-`Error` value was thrown). -/
inductive FetchOutcome where
  | success (payload : GeoJsonData)
  | httpError (status : Nat) (errorField : Option String)
  | thrown (message : Option String)

/-- What one `fetchGeoJsonData` call produces: the new registry, the value
returned to (or error propagated to) the caller, and how many outbound
requests were issued. -/
structure FetchResult where
  items : List DownloadItem
  outcome : Except String GeoJsonData
  requests : Nat

/-- page.tsx `fetchGeoJsonData item index`, applied to the current registry
`items` with the network's behaviour given by `oc`. -/
def fetchGeoJsonData (item : DownloadItem) (index : Nat) (oc : FetchOutcome)
    (items : List DownloadItem) : FetchResult :=
  match item.geoJson with
  | some cached => ⟨items, .ok cached, 0⟩
  | none =>
    let items1 := setLoading items index
    match oc with
    | .success payload =>
      ⟨listMapIdx
          (fun i prevItem =>
            if i = index then
              { prevItem with geoJson := some payload, isLoading := some false }
            else prevItem)
          items1,
        .ok payload, 1⟩
    | .httpError status errorField =>
      let errorMessage :=
        jsOrStr errorField ("HTTP error! status: " ++ natToString status)
      ⟨listMapIdx
          (fun i prevItem =>
            if i = index then
              { prevItem with isLoading := some false, error := some errorMessage }
            else prevItem)
          items1,
        .error errorMessage, 1⟩
    | .thrown message =>
      let errorMessage := message.getD "Unknown error"
      ⟨listMapIdx
          (fun i prevItem =>
            if i = index then
              { prevItem with isLoading := some false, error := some errorMessage }
            else prevItem)
          items1,
        .error errorMessage, 1⟩

/-- Registry states reachable by sequentially completed operations: the
initial empty registry, a paste submission, or a fetch for an item read from
the current registry. -/
inductive Reachable : List DownloadItem → Prop
  | init : Reachable []
  | parse {s : List DownloadItem} (input : Option Json) :
      Reachable s → Reachable (generateDownloadLinks input s).1
  | fetch {s : List DownloadItem} {item : DownloadItem} (index : Nat)
      (oc : FetchOutcome) :
      Reachable s → s.get? index = some item →
      Reachable (fetchGeoJsonData item index oc s).items

/-! ## Concrete fixtures used to instantiate the theorems -/

/-- A freshly parsed item: no payload, no loading flag, no error. -/
def freshItem : DownloadItem := ⟨none, none, none, none, none, none⟩

/-- A small concrete feature collection. -/
def sampleDoc : GeoJsonData := ⟨"FeatureCollection", []⟩

/-- An item whose payload is already cached. -/
def cachedItem : DownloadItem := ⟨none, none, none, some sampleDoc, none, none⟩

/-- A pasted document with the full `data.lands.edges[0].node.geometry.storage`
chain but no `uuid` or `name` on the node. -/
def cexNoUuidInput : Json :=
  .obj [("data", .obj [("lands", .obj [("edges", .arr [
    .obj [("node", .obj [("geometry", .obj [("storage",
      .obj [("signedURL", .str "https://x/y")])])])]])])])]

/-- The item the parser produces from `cexNoUuidInput`. -/
def parsedItem : DownloadItem :=
  ⟨none, none, some (.str "https://x/y"), none, none, none⟩

/-- A small polygon geometry. -/
def cexPolyGeom : GeoGeometry := ⟨"Polygon", .rings [[[0, 0], [1, 0], [0, 1]]]⟩

/-- A polygon feature whose `properties.name` is present but empty. -/
def cexEmptyNameFeature : GeoJsonFeature :=
  ⟨"Feature", some cexPolyGeom, some ⟨some "", none⟩⟩

/-- A polygon feature whose `properties.name` contains XML-special
characters. -/
def xmlNameFeature : GeoJsonFeature :=
  ⟨"Feature", some cexPolyGeom, some ⟨some "a<b&c", none⟩⟩

/-- A feature collection with 2 polygons, one 3-point MultiPoint, one
LineString and one geometry-less feature: P = 2, K = 3. -/
def witnessDoc : GeoJsonData :=
  ⟨"FeatureCollection",
    [⟨"Feature", some ⟨"Polygon", .rings [[[0, 0, 5], [1, 0], [1, 1]]]⟩,
        some ⟨some "Zone 1", some "crop"⟩⟩,
     ⟨"Feature", some ⟨"MultiPoint", .pts [[2, 3], [4, 5, 6], [7, 8]]⟩, none⟩,
     ⟨"Feature", some ⟨"LineString", .pts [[0, 0], [1, 1]]⟩, none⟩,
     ⟨"Feature", none, none⟩,
     ⟨"Feature", some ⟨"Polygon",
        .rings [[[0, 0], [2, 0], [2, 2], [0, 2]], [[1, 1], [1, 2]]]⟩,
        some ⟨none, none⟩⟩]⟩

/-- The same features under a non-`FeatureCollection` top-level type. -/
def witnessDocOther : GeoJsonData := ⟨"Feature", witnessDoc.features⟩

/-! ## General helper lemmas -/

theorem string_mk_data (s : String) : (⟨s.data⟩ : String) = s := by
  cases s; rfl

/-! ## Characters of rendered numbers -/

theorem digitChar_ne_lt (m : Nat) : Nat.digitChar m ≠ '<' := by
  rcases Nat.lt_or_ge m 16 with h | h
  · have hall : ∀ k, k < 16 → Nat.digitChar k ≠ '<' := by decide
    exact hall m h
  · simp only [Nat.digitChar]
    iterate 16 rw [if_neg (by omega)]
    decide

theorem toDigitsCore_ne_lt :
    ∀ (f n : Nat) (ds : List Char), (∀ c ∈ ds, c ≠ '<') →
      ∀ c ∈ Nat.toDigitsCore 10 f n ds, c ≠ '<' := by
  intro f
  induction f with
  | zero =>
    intro n ds h c hc
    exact h c (by simpa [Nat.toDigitsCore] using hc)
  | succ f ih =>
    intro n ds h c hc
    simp only [Nat.toDigitsCore] at hc
    by_cases hz : n / 10 = 0
    · simp only [hz, if_true] at hc
      rcases List.mem_cons.mp hc with rfl | hc2
      · exact digitChar_ne_lt _
      · exact h c hc2
    · simp only [hz, if_false] at hc
      refine ih (n / 10) _ ?_ c hc
      intro d hd
      rcases List.mem_cons.mp hd with rfl | hd2
      · exact digitChar_ne_lt _
      · exact h d hd2

theorem natToString_ltFree (n : Nat) : LtFree (natToString n) := by
  intro c hc
  exact toDigitsCore_ne_lt (n + 1) n [] (by simp) c hc

theorem intToString_ltFree (i : Int) : LtFree (intToString i) := by
  cases i with
  | ofNat m => exact natToString_ltFree m
  | negSucc m =>
    intro c hc
    have : c ∈ ("-" : String).data ++ (Nat.repr (m + 1)).data := by
      simpa [intToString, Int.repr, String.data_append] using hc
    rcases List.mem_append.mp this with h1 | h2
    · simp only [show ("-" : String).data = ['-'] from rfl, List.mem_singleton] at h1
      subst h1; decide
    · exact natToString_ltFree (m + 1) c h2

/-! ## Sanitizer lemmas -/

theorem replaceInvalid_not_invalid (l : List Char) :
    ∀ c ∈ replaceInvalid l, isInvalidChar c = false := by
  intro c hc
  simp only [replaceInvalid, List.mem_map] at hc
  obtain ⟨a, _, rfl⟩ := hc
  by_cases h : isInvalidChar a
  · simp only [h, if_true]; decide
  · simp only [h, if_false]
    exact Bool.not_eq_true _ ▸ (by simpa using h)

theorem collapseWs_mem {l : List Char} {b : Bool} {c : Char}
    (hc : c ∈ collapseWs l b) :
    c = '_' ∨ (c ∈ l ∧ isJsWhitespace c = false) := by
  induction l generalizing b with
  | nil => simp [collapseWs] at hc
  | cons a rest ih =>
    by_cases hws : isJsWhitespace a
    · cases b with
      | true =>
        rw [show collapseWs (a :: rest) true = collapseWs rest true by
              simp [collapseWs, hws]] at hc
        rcases ih hc with h | ⟨h1, h2⟩
        · exact Or.inl h
        · exact Or.inr ⟨List.mem_cons_of_mem _ h1, h2⟩
      | false =>
        rw [show collapseWs (a :: rest) false = '_' :: collapseWs rest true by
              simp [collapseWs, hws]] at hc
        rcases List.mem_cons.mp hc with h | hc2
        · exact Or.inl h
        · rcases ih hc2 with h | ⟨h1, h2⟩
          · exact Or.inl h
          · exact Or.inr ⟨List.mem_cons_of_mem _ h1, h2⟩
    · rw [show collapseWs (a :: rest) b = a :: collapseWs rest false by
            simp [collapseWs, hws]] at hc
      rcases List.mem_cons.mp hc with h | hc2
      · exact Or.inr ⟨h ▸ List.mem_cons_self _ _, h ▸ (by simpa using hws)⟩
      · rcases ih hc2 with h | ⟨h1, h2⟩
        · exact Or.inl h
        · exact Or.inr ⟨List.mem_cons_of_mem _ h1, h2⟩

theorem trimChars_subset {l : List Char} : ∀ c ∈ trimChars l, c ∈ l := by
  intro c hc
  simp only [trimChars, List.mem_reverse] at hc
  have h1 := (List.dropWhile_sublist isJsWhitespace).subset hc
  simp only [List.mem_reverse] at h1
  exact (List.dropWhile_sublist isJsWhitespace).subset h1

theorem replaceInvalid_id {l : List Char}
    (h : ∀ c ∈ l, isInvalidChar c = false) : replaceInvalid l = l := by
  induction l with
  | nil => rfl
  | cons a rest ih =>
    have ha := h a (List.mem_cons_self _ _)
    simp only [replaceInvalid, List.map_cons, ha, Bool.false_eq_true, if_false]
    exact congrArg _ (ih fun c hc => h c (List.mem_cons_of_mem _ hc))

theorem collapseWs_id {l : List Char}
    (h : ∀ c ∈ l, isJsWhitespace c = false) (b : Bool) : collapseWs l b = l := by
  induction l generalizing b with
  | nil => rfl
  | cons a rest ih =>
    have ha := h a (List.mem_cons_self _ _)
    simp only [collapseWs, ha, Bool.false_eq_true, if_false]
    exact congrArg _ (ih (fun c hc => h c (List.mem_cons_of_mem _ hc)) false)

theorem dropWhile_eq_self_of_none {p : Char → Bool} {l : List Char}
    (h : ∀ c ∈ l, p c = false) : l.dropWhile p = l := by
  cases l with
  | nil => rfl
  | cons a rest =>
    have ha := h a (List.mem_cons_self _ _)
    simp [List.dropWhile_cons, ha]

theorem trimChars_id {l : List Char}
    (h : ∀ c ∈ l, isJsWhitespace c = false) : trimChars l = l := by
  unfold trimChars
  rw [dropWhile_eq_self_of_none h,
      dropWhile_eq_self_of_none (fun c hc => h c (by simpa using hc)),
      List.reverse_reverse]

/-- C9: the claim's statement.  `sanitizeFilename` output contains no invalid
character and no whitespace, so a second pass is the identity. -/
theorem sanitize_output_clean (s : String) :
    ∀ c ∈ (sanitizeFilename s).data,
      isJsWhitespace c = false ∧ isInvalidChar c = false := by
  intro c hc
  have hc2 := trimChars_subset c hc
  rcases collapseWs_mem hc2 with rfl | ⟨h1, h2⟩
  · exact ⟨by decide, by decide⟩
  · exact ⟨h2, replaceInvalid_not_invalid _ _ h1⟩

/-- C9: applying the filename sanitizer twice yields the same result as
applying it once, for every input string. -/
theorem claim_C9 (s : String) :
    sanitizeFilename (sanitizeFilename s) = sanitizeFilename s := by
  have hchars := sanitize_output_clean s
  have h1 : replaceInvalid (sanitizeFilename s).data = (sanitizeFilename s).data :=
    replaceInvalid_id (fun c hc => (hchars c hc).2)
  have h2 : collapseWs (sanitizeFilename s).data false = (sanitizeFilename s).data :=
    collapseWs_id (fun c hc => (hchars c hc).1) false
  have h3 : trimChars (sanitizeFilename s).data = (sanitizeFilename s).data :=
    trimChars_id (fun c hc => (hchars c hc).1)
  calc (⟨trimChars (collapseWs (replaceInvalid (sanitizeFilename s).data) false)⟩ : String)
      = ⟨(sanitizeFilename s).data⟩ := by rw [h1, h2, h3]
    _ = sanitizeFilename s := string_mk_data _

/-! ## Indexed-map lemmas for the registry -/

theorem mapIdxFrom_get? {α : Type} (f : Nat → α → α) (start j : Nat) (l : List α) :
    (mapIdxFrom f start l).get? j = (l.get? j).map (f (start + j)) := by
  induction l generalizing start j with
  | nil => simp [mapIdxFrom]
  | cons a rest ih =>
    cases j with
    | zero => simp [mapIdxFrom]
    | succ j =>
      simp only [mapIdxFrom, List.get?_cons_succ]
      rw [ih]
      have harith : start + 1 + j = start + (j + 1) := by omega
      rw [harith]

theorem listMapIdx_get? {α : Type} (f : Nat → α → α) (j : Nat) (l : List α) :
    (listMapIdx f l).get? j = (l.get? j).map (f j) := by
  have := mapIdxFrom_get? f 0 j l
  simpa [listMapIdx] using this

theorem setLoading_get?_ne {items : List DownloadItem} {index i : Nat}
    (h : i ≠ index) : (setLoading items index).get? i = items.get? i := by
  rw [setLoading, listMapIdx_get?]
  cases items.get? i <;> simp [h]

theorem setLoading_get?_eq {items : List DownloadItem} {index : Nat}
    {x : DownloadItem} (hx : items.get? index = some x) :
    (setLoading items index).get? index
      = some { x with isLoading := some true, error := none } := by
  rw [setLoading, listMapIdx_get?, hx]
  simp

theorem fetch_get?_ne {item : DownloadItem} {index : Nat} {oc : FetchOutcome}
    {items : List DownloadItem} {i : Nat} (h : i ≠ index) :
    (fetchGeoJsonData item index oc items).items.get? i = items.get? i := by
  have hset : (setLoading items index).get? i = items.get? i := setLoading_get?_ne h
  cases hg : item.geoJson with
  | some g => simp [fetchGeoJsonData, hg]
  | none =>
    cases oc with
    | success p =>
      simp only [fetchGeoJsonData, hg]
      rw [listMapIdx_get?, hset]
      cases items.get? i <;> simp [h]
    | httpError status errorField =>
      simp only [fetchGeoJsonData, hg]
      rw [listMapIdx_get?, hset]
      cases items.get? i <;> simp [h]
    | thrown message =>
      simp only [fetchGeoJsonData, hg]
      rw [listMapIdx_get?, hset]
      cases items.get? i <;> simp [h]

/-- C8: every per-item state transition performed by `fetchGeoJsonData`
(the loading mark, the success record, the failure record) replaces only the
item at `index`; the item value at every other position is unchanged. -/
theorem claim_C8 (item : DownloadItem) (index : Nat) (oc : FetchOutcome)
    (items : List DownloadItem) (i : Nat) (h : i ≠ index) :
    (fetchGeoJsonData item index oc items).items.get? i = items.get? i ∧
    (setLoading items index).get? i = items.get? i :=
  ⟨fetch_get?_ne h, setLoading_get?_ne h⟩

/-- C8 witness at a concrete registry. -/
theorem claim_C8_witness :
    ((1 : Nat) ≠ 0) ∧
    ((fetchGeoJsonData freshItem 0 (.success sampleDoc) [freshItem, cachedItem]).items.get? 1
        = [freshItem, cachedItem].get? 1 ∧
      (setLoading [freshItem, cachedItem] 0).get? 1 = [freshItem, cachedItem].get? 1) :=
  ⟨by decide, claim_C8 freshItem 0 (.success sampleDoc) [freshItem, cachedItem] 1 (by decide)⟩

/-- C2: a cached payload is returned at once, with no request and no state
change; and for a fresh item a successful fetch issues one request after
which a second sequential call for the same item issues none and changes
nothing. -/
theorem claim_C2 (item : DownloadItem) (index : Nat) (oc oc2 : FetchOutcome)
    (items : List DownloadItem) (g p : GeoJsonData) :
    (item.geoJson = some g →
      fetchGeoJsonData item index oc items = ⟨items, .ok g, 0⟩) ∧
    (item.geoJson = none → index < items.length →
      (fetchGeoJsonData item index (.success p) items).requests = 1 ∧
      ∀ item2,
        (fetchGeoJsonData item index (.success p) items).items.get? index = some item2 →
        fetchGeoJsonData item2 index oc2 (fetchGeoJsonData item index (.success p) items).items
          = ⟨(fetchGeoJsonData item index (.success p) items).items, .ok p, 0⟩) := by
  constructor
  · intro h
    simp [fetchGeoJsonData, h]
  · intro h hlen
    constructor
    · simp [fetchGeoJsonData, h]
    · intro item2 h2
      obtain ⟨x, hx⟩ : ∃ x, items.get? index = some x := by
        cases hx : items.get? index with
        | none => exact absurd (List.get?_eq_none.mp hx) (by omega)
        | some x => exact ⟨x, rfl⟩
      have hitems : (fetchGeoJsonData item index (.success p) items).items
          = listMapIdx
              (fun i prevItem =>
                if i = index then
                  { prevItem with geoJson := some p, isLoading := some false }
                else prevItem)
              (setLoading items index) := by
        simp [fetchGeoJsonData, h]
      rw [hitems, listMapIdx_get?, setLoading_get?_eq hx] at h2
      simp only [Option.map_some', if_pos rfl] at h2
      have hg2 : item2.geoJson = some p := by
        rw [← Option.some.inj h2]
        simp
      simp [fetchGeoJsonData, hg2]

/-- C2 witness: a concrete fresh item, fetched twice in sequence. -/
theorem claim_C2_witness :
    (freshItem.geoJson = none ∧ 0 < [freshItem].length) ∧
    ((fetchGeoJsonData freshItem 0 (.success sampleDoc) [freshItem]).requests = 1 ∧
      ∀ item2,
        (fetchGeoJsonData freshItem 0 (.success sampleDoc) [freshItem]).items.get? 0 = some item2 →
        fetchGeoJsonData item2 0 (.thrown none)
            (fetchGeoJsonData freshItem 0 (.success sampleDoc) [freshItem]).items
          = ⟨(fetchGeoJsonData freshItem 0 (.success sampleDoc) [freshItem]).items,
              .ok sampleDoc, 0⟩) :=
  ⟨⟨rfl, by decide⟩,
    (claim_C2 freshItem 0 (.thrown none) (.thrown none) [freshItem] sampleDoc sampleDoc).2
      rfl (by decide)⟩

/-- C6 (amended): a failed fetch records the error description — the error
body's `error` field when it is present and non-empty, otherwise the generic
status message (or the thrown error's message for a transport-level throw) —
marks the item as no longer loading, leaves its payload unset, and propagates
the failure to the caller. -/
theorem claim_C6 (items : List DownloadItem) (item : DownloadItem) (index : Nat)
    (status : Nat) (errorField : Option String) (message : Option String)
    (hit : items.get? index = some item) (hg : item.geoJson = none) :
    ((fetchGeoJsonData item index (.httpError status errorField) items).outcome
        = .error (match errorField with
            | some s => if s = "" then "HTTP error! status: " ++ natToString status else s
            | none => "HTTP error! status: " ++ natToString status) ∧
      (fetchGeoJsonData item index (.httpError status errorField) items).items.get? index
        = some { item with
            isLoading := some false,
            error := some (match errorField with
              | some s => if s = "" then "HTTP error! status: " ++ natToString status else s
              | none => "HTTP error! status: " ++ natToString status) } ∧
      ({ item with
          isLoading := some false,
          error := some (match errorField with
            | some s => if s = "" then "HTTP error! status: " ++ natToString status else s
            | none => "HTTP error! status: " ++ natToString status) } : DownloadItem).geoJson
        = none) ∧
    ((fetchGeoJsonData item index (.thrown message) items).outcome
        = .error (message.getD "Unknown error") ∧
      (fetchGeoJsonData item index (.thrown message) items).items.get? index
        = some { item with
            isLoading := some false, error := some (message.getD "Unknown error") }) := by
  have hmsg : ∀ fallback : String, jsOrStr errorField fallback
      = (match errorField with
          | some s => if s = "" then fallback else s
          | none => fallback) := by
    intro fallback
    cases errorField <;> rfl
  refine ⟨⟨?_, ?_, ?_⟩, ?_, ?_⟩
  · simp [fetchGeoJsonData, hg, hmsg]
  · simp only [fetchGeoJsonData, hg]
    rw [listMapIdx_get?, setLoading_get?_eq hit]
    simp [hmsg, hg]
  · exact hg
  · simp [fetchGeoJsonData, hg]
  · simp only [fetchGeoJsonData, hg]
    rw [listMapIdx_get?, setLoading_get?_eq hit]
    simp [hg]

/-- C6 counterexample to the claim as stated: the error body is present with
the empty-string description, yet `lastError` becomes the generic
status-based message, not the present (empty) description. -/
theorem claim_C6_cex :
    (fetchGeoJsonData freshItem 0 (.httpError 500 (some "")) [freshItem]).outcome
        = .error "HTTP error! status: 500" ∧
    (fetchGeoJsonData freshItem 0 (.httpError 500 (some "")) [freshItem]).items.get? 0
        = some { freshItem with
            isLoading := some false, error := some "HTTP error! status: 500" } ∧
    ("HTTP error! status: 500" : String) ≠ "" := by
  refine ⟨rfl, rfl, by decide⟩

/-- C6 witness at a concrete failing fetch. -/
theorem claim_C6_witness :
    ([freshItem].get? 0 = some freshItem ∧ freshItem.geoJson = none) ∧
    (((fetchGeoJsonData freshItem 0 (.httpError 404 none) [freshItem]).outcome
        = .error ("HTTP error! status: " ++ natToString 404) ∧
      (fetchGeoJsonData freshItem 0 (.httpError 404 none) [freshItem]).items.get? 0
        = some { freshItem with
            isLoading := some false,
            error := some ("HTTP error! status: " ++ natToString 404) } ∧
      ({ freshItem with
          isLoading := some false,
          error := some ("HTTP error! status: " ++ natToString 404) } : DownloadItem).geoJson
        = none) ∧
    ((fetchGeoJsonData freshItem 0 (.thrown (some "network down")) [freshItem]).outcome
        = .error ((some "network down").getD "Unknown error") ∧
      (fetchGeoJsonData freshItem 0 (.thrown (some "network down")) [freshItem]).items.get? 0
        = some { freshItem with
            isLoading := some false,
            error := some ((some "network down").getD "Unknown error") })) :=
  ⟨⟨rfl, rfl⟩,
    claim_C6 [freshItem] freshItem 0 404 none (some "network down") rfl rfl⟩

/-! ## Parser lemmas -/

theorem except_bind_error {ε α β : Type} (u : ε) (f : α → Except ε β) :
    (Except.error u >>= f) = Except.error u := rfl

theorem except_bind_ok {ε α β : Type} (a : α) (f : α → Except ε β) :
    (Except.ok a >>= f) = f a := rfl

theorem buildOne_clean {e : Json} {it : DownloadItem} (h : buildOne e = .ok it) :
    it.geoJson = none ∧ it.isLoading = none ∧ it.error = none := by
  unfold buildOne at h
  cases h1 : jsGet (some e) "node" with
  | error u => rw [h1, except_bind_error] at h; simp at h
  | ok node =>
    rw [h1, except_bind_ok] at h
    cases h2 : jsGet node "uuid" with
    | error u => rw [h2, except_bind_error] at h; simp at h
    | ok uuid =>
      rw [h2, except_bind_ok] at h
      cases h3 : jsGet node "name" with
      | error u => rw [h3, except_bind_error] at h; simp at h
      | ok name =>
        rw [h3, except_bind_ok] at h
        cases h4 : jsGet node "geometry" with
        | error u => rw [h4, except_bind_error] at h; simp at h
        | ok geometry =>
          rw [h4, except_bind_ok] at h
          cases h5 : jsGet geometry "storage" with
          | error u => rw [h5, except_bind_error] at h; simp at h
          | ok storage =>
            rw [h5, except_bind_ok] at h
            cases h6 : jsGet storage "signedURL" with
            | error u => rw [h6, except_bind_error] at h; simp at h
            | ok signedURL =>
              rw [h6, except_bind_ok] at h
              rw [← Except.ok.inj h]
              exact ⟨rfl, rfl, rfl⟩

theorem buildItemsFromEdges_clean :
    ∀ (edges : List Json) (items : List DownloadItem),
      buildItemsFromEdges edges = .ok items →
      ∀ it ∈ items, it.geoJson = none ∧ it.isLoading = none ∧ it.error = none := by
  intro edges
  induction edges with
  | nil =>
    intro items h it hit
    simp only [buildItemsFromEdges] at h
    rw [← Except.ok.inj h] at hit
    simp at hit
  | cons e rest ih =>
    intro items h it hit
    simp only [buildItemsFromEdges] at h
    cases hb : buildOne e with
    | error u => rw [hb, except_bind_error] at h; simp at h
    | ok a =>
      rw [hb, except_bind_ok] at h
      cases hr : buildItemsFromEdges rest with
      | error u => rw [hr, except_bind_error] at h; simp at h
      | ok rs =>
        rw [hr, except_bind_ok] at h
        rw [← Except.ok.inj h] at hit
        rcases List.mem_cons.mp hit with rfl | hit2
        · exact buildOne_clean hb
        · exact ih rs hr it hit2

theorem parseResponse_clean {input : Option Json} {items : List DownloadItem}
    (h : parseResponse input = .ok items) :
    ∀ it ∈ items, it.geoJson = none ∧ it.isLoading = none ∧ it.error = none := by
  cases input with
  | none => simp [parseResponse] at h
  | some j =>
    simp only [parseResponse] at h
    cases h1 : jsGet (some j) "data" with
    | error u => rw [h1, except_bind_error] at h; simp at h
    | ok d =>
      rw [h1, except_bind_ok] at h
      cases h2 : jsGet d "lands" with
      | error u => rw [h2, except_bind_error] at h; simp at h
      | ok lands =>
        rw [h2, except_bind_ok] at h
        cases h3 : jsGet lands "edges" with
        | error u => rw [h3, except_bind_error] at h; simp at h
        | ok edges =>
          rw [h3, except_bind_ok] at h
          cases h4 : jsArrayElems edges with
          | error u => rw [h4, except_bind_error] at h; simp at h
          | ok edgeList =>
            rw [h4, except_bind_ok] at h
            exact buildItemsFromEdges_clean edgeList items h

/-- C3 (amended): whenever the parse/shape traversal throws — text that is
not JSON, or a missing or `null` step on the `data`/`lands`/`edges` or
`node`/`geometry`/`storage` path, or an `edges` that is not a sequence — the
operation fails as a whole: it signals exactly one user-facing parse error
and leaves the existing registry exactly unchanged.  (A node missing only a
`uuid`, `name` or `signedURL` leaf does not fail: it yields an item with that
field undefined — see the counterexample.) -/
theorem claim_C3 (input : Option Json) (current : List DownloadItem)
    (h : parseResponse input = .error ()) :
    generateDownloadLinks input current = (current, true) := by
  simp [generateDownloadLinks, h]

/-- C3 counterexample to the claim as stated: an input whose node is missing
the `uuid` and `name` leaves — hence not of the expected nested shape — is
accepted: no parse error is signalled and the non-empty registry is replaced. -/
theorem claim_C3_cex :
    (generateDownloadLinks (some cexNoUuidInput) [cachedItem]).2 = false ∧
    (generateDownloadLinks (some cexNoUuidInput) [cachedItem]).1 = [parsedItem] ∧
    (generateDownloadLinks (some cexNoUuidInput) [cachedItem]).1 ≠ [cachedItem] := by
  refine ⟨rfl, rfl, ?_⟩
  intro hcon
  have h1 : parsedItem = cachedItem := by
    have h0 : (generateDownloadLinks (some cexNoUuidInput) [cachedItem]).1
        = [parsedItem] := rfl
    rw [h0] at hcon
    exact (List.cons.inj hcon).1
  have h2 := congrArg DownloadItem.signedURL h1
  simp [parsedItem, cachedItem] at h2

/-- C3 witness: unparseable text against a non-empty registry. -/
theorem claim_C3_witness :
    parseResponse none = .error () ∧
    generateDownloadLinks none [cachedItem] = ([cachedItem], true) :=
  ⟨rfl, claim_C3 none [cachedItem] rfl⟩

/-! ## Registry invariant (C7) -/

theorem reachable_invariant {s : List DownloadItem} (hs : Reachable s) :
    ∀ it ∈ s, ¬(it.geoJson.isSome = true ∧ it.error.isSome = true) := by
  induction hs with
  | init => intro it hit; simp at hit
  | parse input hprev ih =>
    intro it hit
    rename_i sprev
    cases hp : parseResponse input with
    | error u =>
      cases u
      simp only [generateDownloadLinks, hp] at hit
      exact ih it hit
    | ok items2 =>
      simp only [generateDownloadLinks, hp] at hit
      have := (parseResponse_clean hp it hit).1
      simp [this]
  | fetch index oc hprev hget ih =>
    intro it hit
    rename_i sprev item
    obtain ⟨j, hj⟩ := List.mem_iff_get?.mp hit
    by_cases hji : j = index
    · subst hji
      cases hgj : item.geoJson with
      | some g =>
        have heq : (fetchGeoJsonData item j oc sprev).items = sprev := by
          simp [fetchGeoJsonData, hgj]
        rw [heq] at hj
        exact ih it (List.get?_mem hj)
      | none =>
        cases oc with
        | success p =>
          simp only [fetchGeoJsonData, hgj] at hj
          rw [listMapIdx_get?, setLoading_get?_eq hget] at hj
          simp only [Option.map_some'] at hj
          have hfields := Option.some.inj hj
          have her : it.error = none := by rw [← hfields]; simp
          simp [her]
        | httpError status errorField =>
          simp only [fetchGeoJsonData, hgj] at hj
          rw [listMapIdx_get?, setLoading_get?_eq hget] at hj
          simp only [Option.map_some'] at hj
          have hfields := Option.some.inj hj
          have hge : it.geoJson = none := by rw [← hfields]; simp [hgj]
          simp [hge]
        | thrown message =>
          simp only [fetchGeoJsonData, hgj] at hj
          rw [listMapIdx_get?, setLoading_get?_eq hget] at hj
          simp only [Option.map_some'] at hj
          have hfields := Option.some.inj hj
          have hge : it.geoJson = none := by rw [← hfields]; simp [hgj]
          simp [hge]
    · rw [fetch_get?_ne hji] at hj
      exact ih it (List.get?_mem hj)

/-- C7: in every reachable registry state no item has both a payload and a
recorded error, and the start of every fetch clears the item's `lastError`
and sets its loading flag. -/
theorem claim_C7 :
    (∀ s, Reachable s →
      ∀ it ∈ s, ¬(it.geoJson.isSome = true ∧ it.error.isSome = true)) ∧
    (∀ (items : List DownloadItem) (index : Nat) (x : DownloadItem),
      items.get? index = some x →
      (setLoading items index).get? index
        = some { x with isLoading := some true, error := none }) :=
  ⟨fun _ hs => reachable_invariant hs, fun _ _ _ hx => setLoading_get?_eq hx⟩

/-! ## Converter lemmas: placemark names, descriptions, boundary lines -/

theorem string_data_ext {s t : String} (h : s.data = t.data) : s = t := by
  cases s; cases t; exact congrArg String.mk h

theorem strAppend_assoc (a b c : String) : (a ++ b) ++ c = a ++ (b ++ c) :=
  string_data_ext (by simp [String.data_append, List.append_assoc])

theorem jsOrStr_eq_match (v : Option String) (fallback : String) :
    jsOrStr v fallback
      = (match v with
         | some s => if s = "" then fallback else s
         | none => fallback) := by
  cases v <;> rfl

/-- C5: the polygon boundary is built from the first ring only (further
rings contribute nothing), its vertices are emitted in source order, one
`lng,lat,alt` line each, and a missing third coordinate — like an explicit
zero — renders as altitude `0`. -/
theorem claim_C5 :
    (∀ (r : List (List Int)) (rs rs2 : List (List (List Int))),
      polygonCoordLines (.rings (r :: rs)) = polygonCoordLines (.rings (r :: rs2))) ∧
    (∀ (r : List (List Int)) (rs : List (List (List Int))),
      polygonCoordLines (.rings (r :: rs))
        = (r.map (fun coord => "              " ++ coordTriple coord ++ "\n")).foldr
            (fun a b => a ++ b) "") ∧
    (∀ x y z : Int, coordTriple [x, y, z]
        = intToString x ++ "," ++ intToString y ++ "," ++ intToString z) ∧
    (∀ x y : Int, coordTriple [x, y]
        = intToString x ++ "," ++ intToString y ++ ",0") ∧
    (∀ x y : Int, coordTriple [x, y, 0]
        = intToString x ++ "," ++ intToString y ++ ",0") := by
  have hr : ∀ r : List (List Int),
      ringLines r
        = (r.map (fun coord => "              " ++ coordTriple coord ++ "\n")).foldr
            (fun a b => a ++ b) "" := by
    intro r
    induction r with
    | nil => rfl
    | cons c cs ih =>
      simp only [ringLines, List.map_cons, List.foldr_cons, ← ih]
      rfl
  refine ⟨fun r rs rs2 => rfl, fun r rs => hr r, fun x y z => ?_, fun x y => ?_,
    fun x y => ?_⟩
  · show renderOptInt (some x) ++ "," ++ renderOptInt (some y) ++ "," ++ intToString z = _
    rfl
  · apply string_data_ext
    simp [coordTriple, renderOptInt, String.data_append]
    rfl
  · apply string_data_ext
    simp [coordTriple, renderOptInt, String.data_append]
    rfl

/-- C4 (amended): the polygon placemark's name is the feature's own
`properties.name` when that property is present and non-empty, otherwise
`"{displayName} - Area {index+1}"`; its description is `properties.funcType`
when present and non-empty, otherwise `"Polygon area"`. -/
theorem claim_C4 (name : String) (index : Nat) (f : GeoJsonFeature)
    (g : GeoGeometry) :
    (∃ a b, polygonPlacemark name index f g
      = a ++ ("<name>" ++
          (match f.properties.bind FeatureProperties.name with
           | some s => if s = "" then name ++ " - Area " ++ natToString (index + 1) else s
           | none => name ++ " - Area " ++ natToString (index + 1)) ++ "</name>") ++ b) ∧
    (∃ a b, polygonPlacemark name index f g
      = a ++ ("<description>" ++
          (match f.properties.bind FeatureProperties.funcType with
           | some s => if s = "" then "Polygon area" else s
           | none => "Polygon area") ++ "</description>") ++ b) := by
  constructor
  · refine ⟨"    <Placemark>\n      ",
      "\n      <description>" ++
        jsOrStr (f.properties.bind FeatureProperties.funcType) "Polygon area" ++
        ("</description>\n      <Polygon>\n        <extrude>1</extrude>\n        <altitudeMode>clampToGround</altitudeMode>\n        <outerBoundaryIs>\n          <LinearRing>\n            <coordinates>\n" ++
          (polygonCoordLines g.coordinates ++
            "            </coordinates>\n          </LinearRing>\n        </outerBoundaryIs>\n      </Polygon>\n    </Placemark>\n")), ?_⟩
    rw [← jsOrStr_eq_match]
    apply string_data_ext
    simp [polygonPlacemark, String.data_append, List.append_assoc]
  · refine ⟨"    <Placemark>\n      <name>" ++
        jsOrStr (f.properties.bind FeatureProperties.name)
          (name ++ " - Area " ++ natToString (index + 1)) ++ "</name>\n      ",
      "\n      <Polygon>\n        <extrude>1</extrude>\n        <altitudeMode>clampToGround</altitudeMode>\n        <outerBoundaryIs>\n          <LinearRing>\n            <coordinates>\n" ++
        (polygonCoordLines g.coordinates ++
          "            </coordinates>\n          </LinearRing>\n        </outerBoundaryIs>\n      </Polygon>\n    </Placemark>\n"), ?_⟩
    rw [← jsOrStr_eq_match]
    apply string_data_ext
    simp [polygonPlacemark, String.data_append, List.append_assoc]

/-- C4 counterexample to the claim as stated: `properties.name` is present
(the empty string), yet the emitted placemark's name is the fallback
`"F - Area 1"`, not the present property value. -/
theorem claim_C4_cex :
    cexEmptyNameFeature.properties.bind FeatureProperties.name = some "" ∧
    countOccStr "<name></name>"
      (polygonPlacemark "F" 0 cexEmptyNameFeature cexPolyGeom) = 0 ∧
    countOccStr "<name>F - Area 1</name>"
      (polygonPlacemark "F" 0 cexEmptyNameFeature cexPolyGeom) = 1 :=
  ⟨rfl, by decide, by decide⟩

/-- C10: the converter performs no XML escaping: the display name — and any
present non-empty `properties.name` — is interpolated verbatim, so the output
contains the literal substring `<name>` ++ the string ++ `</name>`, whatever
characters the string holds. -/
theorem claim_C10 (doc : GeoJsonData) (name : String) (f : GeoJsonFeature)
    (g : GeoGeometry) (index : Nat) (s : String) :
    (∃ a b, convertGeoJsonToKml doc name
        = a ++ ("<name>" ++ name ++ "</name>") ++ b) ∧
    (f.properties.bind FeatureProperties.name = some s → s ≠ "" →
      ∃ a b, polygonPlacemark name index f g
        = a ++ ("<name>" ++ s ++ "</name>") ++ b) := by
  constructor
  · refine ⟨"<?xml version=\"1.0\" encoding=\"UTF-8\"?>\n<kml xmlns=\"http://www.opengis.net/kml/2.2\">\n  <Document>\n    ",
      "\n    <description>Converted from GeoJSON</description>\n" ++
        ((if doc.type = "FeatureCollection" then featuresKml name 0 doc.features
          else "") ++ "  </Document>\n</kml>"), ?_⟩
    apply string_data_ext
    simp [convertGeoJsonToKml, String.data_append, List.append_assoc]
  · intro hname hs
    have hjs : jsOrStr (f.properties.bind FeatureProperties.name)
        (name ++ " - Area " ++ natToString (index + 1)) = s := by
      rw [hname]; simp [jsOrStr, hs]
    refine ⟨"    <Placemark>\n      ",
      "\n      <description>" ++
        jsOrStr (f.properties.bind FeatureProperties.funcType) "Polygon area" ++
        ("</description>\n      <Polygon>\n        <extrude>1</extrude>\n        <altitudeMode>clampToGround</altitudeMode>\n        <outerBoundaryIs>\n          <LinearRing>\n            <coordinates>\n" ++
          (polygonCoordLines g.coordinates ++
            "            </coordinates>\n          </LinearRing>\n        </outerBoundaryIs>\n      </Polygon>\n    </Placemark>\n")), ?_⟩
    rw [← hjs]
    apply string_data_ext
    simp [polygonPlacemark, String.data_append, List.append_assoc]

/-- C10 witness at a display name and a property name holding XML-special
characters. -/
theorem claim_C10_witness :
    (∃ a b, convertGeoJsonToKml sampleDoc "x<y&z"
        = a ++ ("<name>" ++ "x<y&z" ++ "</name>") ++ b) ∧
    (∃ a b, polygonPlacemark "x<y&z" 0 xmlNameFeature cexPolyGeom
        = a ++ ("<name>" ++ "a<b&c" ++ "</name>") ++ b) :=
  ⟨(claim_C10 sampleDoc "x<y&z" xmlNameFeature cexPolyGeom 0 "a<b&c").1,
   (claim_C10 sampleDoc "x<y&z" xmlNameFeature cexPolyGeom 0 "a<b&c").2 rfl
     (by decide)⟩

/-- C7 witness: a concrete reachable state (parse then failed fetch) and a
concrete fetch start. -/
theorem claim_C7_witness :
    (∀ it ∈ (fetchGeoJsonData parsedItem 0 (.httpError 500 none)
        (generateDownloadLinks (some cexNoUuidInput) []).1).items,
      ¬(it.geoJson.isSome = true ∧ it.error.isSome = true)) ∧
    (setLoading [cachedItem] 0).get? 0
      = some { cachedItem with isLoading := some true, error := none } := by
  constructor
  · intro it hit
    refine claim_C7.1 _ ?_ it hit
    exact Reachable.fetch 0 (.httpError 500 none)
      (Reachable.parse (some cexNoUuidInput) Reachable.init) rfl
  · exact claim_C7.2 [cachedItem] 0 cachedItem rfl

/-! ## Occurrence-counting lemmas

`countOcc p (a ++ b) = countOcc p a + countOcc p b` holds whenever no
occurrence of `p` can straddle the boundary; `SafeLeft p a` is the
sufficient condition on `a` alone (no proper suffix of `a` begins an
occurrence of `p` that would continue past the end of `a`). -/

theorem countOcc_append_of_safe {p a b : List Char} (h : SafeLeft p a) :
    countOcc p (a ++ b) = countOcc p a + countOcc p b := by
  induction a with
  | nil => simp [countOcc]
  | cons c a2 ih =>
    have h2 : SafeLeft p a2 := by
      intro i hi hpre
      have := h (i + 1) (by simpa using Nat.succ_lt_succ hi) (by simpa using hpre)
      simpa using this
    have hiff : p.isPrefixOf (c :: (a2 ++ b)) = p.isPrefixOf (c :: a2) := by
      by_cases hpre : p <+: (c :: a2)
      · have h1 : p <+: c :: (a2 ++ b) := by
          have hca : (c :: a2) <+: (c :: a2) ++ b := List.prefix_append _ _
          exact hpre.trans hca
        rw [List.isPrefixOf_iff_prefix.mpr h1, List.isPrefixOf_iff_prefix.mpr hpre]
      · by_cases hpre2 : p <+: c :: (a2 ++ b)
        · exfalso
          by_cases hlen : p.length ≤ (c :: a2).length
          · apply hpre
            have hpre3 : p <+: (c :: a2) ++ b := by simpa using hpre2
            have htake := List.prefix_iff_eq_take.mp hpre3
            rw [List.take_append_eq_append_take, Nat.sub_eq_zero_of_le hlen,
                List.take_zero, List.append_nil] at htake
            rw [htake]
            exact List.take_prefix _ _
          · push_neg at hlen
            have hca : (c :: a2) <+: p :=
              List.prefix_of_prefix_length_le (List.prefix_append (c :: a2) b)
                (by simpa using hpre2) (le_of_lt hlen)
            have hsl := h 0 (by simp) (by simpa using List.isPrefixOf_iff_prefix.mpr hca)
            simp only [List.length_cons] at hlen
            simp at hsl
            omega
        · have e1 : p.isPrefixOf (c :: (a2 ++ b)) = false := by
            cases hb1 : p.isPrefixOf (c :: (a2 ++ b))
            · rfl
            · exact absurd (List.isPrefixOf_iff_prefix.mp hb1) hpre2
          have e2 : p.isPrefixOf (c :: a2) = false := by
            cases hb2 : p.isPrefixOf (c :: a2)
            · rfl
            · exact absurd (List.isPrefixOf_iff_prefix.mp hb2) hpre
          rw [e1, e2]
    simp only [List.cons_append, countOcc, List.append_eq]
    simp only [hiff]
    rw [ih h2]
    omega

theorem countOcc_zero_of_ne {q l : List Char} (h : ∀ c ∈ l, c ≠ '<') :
    countOcc ('<' :: q) l = 0 := by
  induction l with
  | nil => rfl
  | cons c rest ih =>
    have hc := h c (List.mem_cons_self _ _)
    have hbeq : ('<' == c) = false := beq_eq_false_iff_ne.mpr (Ne.symm hc)
    have hpre : ('<' :: q).isPrefixOf (c :: rest) = false := by
      simp [List.isPrefixOf, hbeq]
    simp [countOcc, hpre, ih (fun d hd => h d (List.mem_cons_of_mem _ hd))]

theorem safeLeft_of_ne {q a : List Char} (h : ∀ c ∈ a, c ≠ '<') :
    SafeLeft ('<' :: q) a := by
  intro i hi hpre
  cases hd : a.drop i with
  | nil =>
    have := congrArg List.length hd
    simp [List.length_drop] at this
    omega
  | cons d t =>
    rw [hd] at hpre
    obtain ⟨r, hr⟩ := List.isPrefixOf_iff_prefix.mp hpre
    simp only [List.cons_append] at hr
    have hdlt : d = '<' := (List.cons.inj hr).1
    have hdmem : d ∈ a := List.drop_subset i a (hd ▸ List.mem_cons_self d t)
    exact absurd hdlt (h d hdmem)

theorem countOcc_skip {q a b : List Char} (h : ∀ c ∈ a, c ≠ '<') :
    countOcc ('<' :: q) (a ++ b) = countOcc ('<' :: q) b := by
  rw [countOcc_append_of_safe (safeLeft_of_ne h), countOcc_zero_of_ne h]
  omega

theorem safeLeft_append {p a b : List Char} (ha : SafeLeft p a)
    (hb : SafeLeft p b) : SafeLeft p (a ++ b) := by
  intro i hi hpre
  by_cases hia : i < a.length
  · have hdrop : (a ++ b).drop i = a.drop i ++ b := by
      rw [List.drop_append_eq_append_drop, Nat.sub_eq_zero_of_le (le_of_lt hia),
        List.drop_zero]
    rw [hdrop] at hpre ⊢
    have h1 : a.drop i <+: p := by
      have hp2 : (a.drop i ++ b) <+: p := List.isPrefixOf_iff_prefix.mp hpre
      exact (List.prefix_append _ _).trans hp2
    have h2 := ha i hia (List.isPrefixOf_iff_prefix.mpr h1)
    rw [List.length_append]
    rw [List.length_drop] at h2 ⊢
    omega
  · push_neg at hia
    have hnil : a.drop i = [] := by
      rw [List.drop_eq_nil_iff]
      omega
    have hdrop : (a ++ b).drop i = b.drop (i - a.length) := by
      rw [List.drop_append_eq_append_drop, hnil, List.nil_append]
    rw [hdrop] at hpre ⊢
    have hib : i - a.length < b.length := by
      rw [List.length_append] at hi
      omega
    exact hb (i - a.length) hib hpre

theorem safeLeft_nil {p : List Char} : SafeLeft p [] := by
  intro i hi
  simp at hi

theorem countOcc_skip_pm {a b : List Char} (h : ∀ c ∈ a, c ≠ '<') :
    countOcc pmChars (a ++ b) = countOcc pmChars b := countOcc_skip h

theorem safeLeft_pm_of_ne {a : List Char} (h : ∀ c ∈ a, c ≠ '<') :
    SafeLeft pmChars a := safeLeft_of_ne h

/-! String-level wrappers, peeling one appended piece at a time without
distributing `.data` (so that string literals stay literals). -/

theorem countOccPm_append_safe {a b : String} (h : SafeLeft pmChars a.data) :
    countOcc pmChars (a ++ b).data
      = countOcc pmChars a.data + countOcc pmChars b.data := by
  rw [String.data_append]
  exact countOcc_append_of_safe h

theorem countOccPm_skip {a b : String} (h : LtFree a) :
    countOcc pmChars (a ++ b).data = countOcc pmChars b.data := by
  rw [String.data_append]
  exact countOcc_skip h

theorem safeLeftStr_append {a b : String} (ha : SafeLeft pmChars a.data)
    (hb : SafeLeft pmChars b.data) : SafeLeft pmChars (a ++ b).data := by
  rw [String.data_append]
  exact safeLeft_append ha hb

theorem safeLeftStr_of_ne {a : String} (h : LtFree a) :
    SafeLeft pmChars a.data := safeLeft_of_ne h

/-! ## The interpolated pieces of the KML contain no markup opener -/

theorem ltFree_append {s t : String} (hs : LtFree s) (ht : LtFree t) :
    LtFree (s ++ t) := by
  intro c hc
  rw [String.data_append] at hc
  rcases List.mem_append.mp hc with h | h
  · exact hs c h
  · exact ht c h

theorem renderIntList_ltFree (l : List Int) : LtFree (renderIntList l) := by
  induction l with
  | nil => intro c hc; simp [renderIntList] at hc
  | cons x rest ih =>
    cases rest with
    | nil => exact intToString_ltFree x
    | cons y t =>
      exact ltFree_append (ltFree_append (intToString_ltFree x) (by decide)) ih

theorem renderOptInt_ltFree (v : Option Int) : LtFree (renderOptInt v) := by
  cases v with
  | none => decide
  | some n => exact intToString_ltFree n

theorem renderOptIntList_ltFree (v : Option (List Int)) :
    LtFree (renderOptIntList v) := by
  cases v with
  | none => decide
  | some l => exact renderIntList_ltFree l

theorem coordTriple_ltFree (coord : List Int) : LtFree (coordTriple coord) :=
  ltFree_append (ltFree_append (ltFree_append (ltFree_append
    (renderOptInt_ltFree _) (by decide)) (renderOptInt_ltFree _)) (by decide))
    (intToString_ltFree _)

theorem coordTripleNested_ltFree (coord : List (List Int)) :
    LtFree (coordTripleNested coord) := by
  unfold coordTripleNested
  refine ltFree_append (ltFree_append (ltFree_append (ltFree_append
    (renderOptIntList_ltFree _) (by decide)) (renderOptIntList_ltFree _))
    (by decide)) ?_
  cases coord.get? 2 with
  | none => decide
  | some l => exact renderIntList_ltFree l

theorem coordLineOfList_ltFree (coord : List Int) : LtFree (coordLineOfList coord) :=
  ltFree_append (ltFree_append (by decide) (coordTriple_ltFree _)) (by decide)

theorem ringLines_ltFree (r : List (List Int)) : LtFree (ringLines r) := by
  induction r with
  | nil => intro c hc; simp [ringLines] at hc
  | cons a rest ih => exact ltFree_append (coordLineOfList_ltFree a) ih

theorem coordLineOfNum_ltFree (n : Int) : LtFree (coordLineOfNum n) := by
  unfold coordLineOfNum
  decide

theorem fakeRingLines_ltFree (r : List Int) : LtFree (fakeRingLines r) := by
  induction r with
  | nil => intro c hc; simp [fakeRingLines] at hc
  | cons a rest ih => exact ltFree_append (coordLineOfNum_ltFree a) ih

theorem polygonCoordLines_ltFree (c : Coords) : LtFree (polygonCoordLines c) := by
  cases c with
  | rings r =>
    cases hh : r.head? with
    | none => intro d hd; simp [polygonCoordLines, hh] at hd
    | some ring =>
      intro d hd
      simp only [polygonCoordLines, hh] at hd
      exact ringLines_ltFree ring d hd
  | pts p =>
    cases hh : p.head? with
    | none => intro d hd; simp [polygonCoordLines, hh] at hd
    | some ring =>
      intro d hd
      simp only [polygonCoordLines, hh] at hd
      exact fakeRingLines_ltFree ring d hd

theorem jsOrStr_ltFree {v : Option String} {fb : String} (hv : optLtFree v)
    (hfb : LtFree fb) : LtFree (jsOrStr v fb) := by
  cases v with
  | none => exact hfb
  | some s =>
    unfold jsOrStr
    by_cases hs : s = ""
    · simpa [hs] using hfb
    · simpa [hs] using hv

/-! ## Placemark counts of the emitted chunks -/

theorem countOcc_polygonPlacemark {name : String} {index : Nat}
    {f : GeoJsonFeature} {g : GeoGeometry} (hn : LtFree name)
    (hf : PropsLtFree f) :
    countOcc pmChars (polygonPlacemark name index f g).data = 1 := by
  have hN : LtFree (jsOrStr (f.properties.bind FeatureProperties.name)
      (name ++ (" - Area " ++ natToString (index + 1)))) :=
    jsOrStr_ltFree hf.1
      (ltFree_append hn (ltFree_append (by decide) (natToString_ltFree _)))
  have hD : LtFree (jsOrStr (f.properties.bind FeatureProperties.funcType)
      "Polygon area") := jsOrStr_ltFree hf.2 (by decide)
  have hL : LtFree (polygonCoordLines g.coordinates) := polygonCoordLines_ltFree _
  unfold polygonPlacemark
  simp only [strAppend_assoc]
  rw [countOccPm_append_safe
        (by decide : SafeLeft pmChars ("    <Placemark>\n      <name>" : String).data),
      countOccPm_skip hN,
      countOccPm_append_safe
        (by decide : SafeLeft pmChars ("</name>\n      <description>" : String).data),
      countOccPm_skip hD,
      countOccPm_append_safe
        (by decide : SafeLeft pmChars ("</description>\n      <Polygon>\n        <extrude>1</extrude>\n        <altitudeMode>clampToGround</altitudeMode>\n        <outerBoundaryIs>\n          <LinearRing>\n            <coordinates>\n" : String).data),
      countOccPm_skip hL]
  decide

theorem safeLeft_polygonPlacemark {name : String} {index : Nat}
    {f : GeoJsonFeature} {g : GeoGeometry} (hn : LtFree name)
    (hf : PropsLtFree f) :
    SafeLeft pmChars (polygonPlacemark name index f g).data := by
  have hN : LtFree (jsOrStr (f.properties.bind FeatureProperties.name)
      (name ++ (" - Area " ++ natToString (index + 1)))) :=
    jsOrStr_ltFree hf.1
      (ltFree_append hn (ltFree_append (by decide) (natToString_ltFree _)))
  have hD : LtFree (jsOrStr (f.properties.bind FeatureProperties.funcType)
      "Polygon area") := jsOrStr_ltFree hf.2 (by decide)
  have hL : LtFree (polygonCoordLines g.coordinates) := polygonCoordLines_ltFree _
  unfold polygonPlacemark
  simp only [strAppend_assoc]
  exact safeLeftStr_append (by decide) (safeLeftStr_append (safeLeftStr_of_ne hN)
    (safeLeftStr_append (by decide) (safeLeftStr_append (safeLeftStr_of_ne hD)
      (safeLeftStr_append (by decide) (safeLeftStr_append (safeLeftStr_of_ne hL)
        (by decide))))))

theorem countOcc_pointPlacemark {i : Nat} {cs : String} (hcs : LtFree cs) :
    countOcc pmChars (pointPlacemark i cs).data = 1 := by
  unfold pointPlacemark
  simp only [strAppend_assoc]
  rw [countOccPm_append_safe
        (by decide : SafeLeft pmChars ("    <Placemark>\n      <name>Reference Point " : String).data),
      countOccPm_skip (natToString_ltFree (i + 1)),
      countOccPm_append_safe
        (by decide : SafeLeft pmChars ("</name>\n      <description>Reference point</description>\n      <Point>\n        <coordinates>" : String).data),
      countOccPm_skip hcs]
  decide

theorem safeLeft_pointPlacemark {i : Nat} {cs : String} (hcs : LtFree cs) :
    SafeLeft pmChars (pointPlacemark i cs).data := by
  unfold pointPlacemark
  simp only [strAppend_assoc]
  exact safeLeftStr_append (by decide)
    (safeLeftStr_append (safeLeftStr_of_ne (natToString_ltFree (i + 1)))
      (safeLeftStr_append (by decide) (safeLeftStr_append (safeLeftStr_of_ne hcs)
        (by decide))))

theorem countOcc_pointsKml {α : Type} {render : α → String}
    (hr : ∀ x, LtFree (render x)) :
    ∀ (i : Nat) (l : List α),
      countOcc pmChars (pointsKml render i l).data = l.length := by
  intro i l
  induction l generalizing i with
  | nil => rfl
  | cons c rest ih =>
    simp only [pointsKml]
    rw [countOccPm_append_safe (safeLeft_pointPlacemark (hr c)),
        countOcc_pointPlacemark (hr c), ih]
    simp [Nat.add_comm]

theorem safeLeft_pointsKml {α : Type} {render : α → String}
    (hr : ∀ x, LtFree (render x)) :
    ∀ (i : Nat) (l : List α), SafeLeft pmChars (pointsKml render i l).data := by
  intro i l
  induction l generalizing i with
  | nil => exact safeLeft_nil
  | cons c rest ih =>
    simp only [pointsKml]
    exact safeLeftStr_append (safeLeft_pointPlacemark (hr c)) (ih (i + 1))

theorem countOcc_multiPointPlacemarks (c : Coords) :
    countOcc pmChars (multiPointPlacemarks c).data = coordsTopLen c := by
  cases c with
  | pts p => exact countOcc_pointsKml (fun x => coordTriple_ltFree x) 0 p
  | rings r => exact countOcc_pointsKml (fun x => coordTripleNested_ltFree x) 0 r

theorem safeLeft_multiPointPlacemarks (c : Coords) :
    SafeLeft pmChars (multiPointPlacemarks c).data := by
  cases c with
  | pts p => exact safeLeft_pointsKml (fun x => coordTriple_ltFree x) 0 p
  | rings r => exact safeLeft_pointsKml (fun x => coordTripleNested_ltFree x) 0 r

theorem countOcc_featureChunk {name : String} {index : Nat}
    {f : GeoJsonFeature} (hn : LtFree name) (hf : PropsLtFree f) :
    countOcc pmChars (featureChunk name index f).data = featurePlacemarkCount f := by
  cases hg : f.geometry with
  | none => simp [featureChunk, hg, featurePlacemarkCount, isPolygonFeature,
      multiPointLen, countOcc]
  | some g =>
    by_cases hp : g.type = "Polygon"
    · rw [show featureChunk name index f = polygonPlacemark name index f g by
          simp [featureChunk, hg, hp]]
      rw [countOcc_polygonPlacemark hn hf]
      simp [featurePlacemarkCount, isPolygonFeature, hg, hp]
    · by_cases hm : g.type = "MultiPoint"
      · rw [show featureChunk name index f = multiPointPlacemarks g.coordinates by
            simp [featureChunk, hg, hp, hm]]
        rw [countOcc_multiPointPlacemarks]
        simp [featurePlacemarkCount, isPolygonFeature, multiPointLen, hg, hp, hm]
      · rw [show featureChunk name index f = "" by simp [featureChunk, hg, hp, hm]]
        simp [featurePlacemarkCount, isPolygonFeature, multiPointLen, hg, hp, hm,
          countOcc]

theorem safeLeft_featureChunk {name : String} {index : Nat}
    {f : GeoJsonFeature} (hn : LtFree name) (hf : PropsLtFree f) :
    SafeLeft pmChars (featureChunk name index f).data := by
  cases hg : f.geometry with
  | none =>
    rw [show featureChunk name index f = "" by simp [featureChunk, hg]]
    exact safeLeft_nil
  | some g =>
    by_cases hp : g.type = "Polygon"
    · rw [show featureChunk name index f = polygonPlacemark name index f g by
          simp [featureChunk, hg, hp]]
      exact safeLeft_polygonPlacemark hn hf
    · by_cases hm : g.type = "MultiPoint"
      · rw [show featureChunk name index f = multiPointPlacemarks g.coordinates by
            simp [featureChunk, hg, hp, hm]]
        exact safeLeft_multiPointPlacemarks _
      · rw [show featureChunk name index f = "" by simp [featureChunk, hg, hp, hm]]
        exact safeLeft_nil

theorem countOcc_featuresKml {name : String} (hn : LtFree name) :
    ∀ (i : Nat) (fs : List GeoJsonFeature), (∀ f ∈ fs, PropsLtFree f) →
      countOcc pmChars (featuresKml name i fs).data
        = (fs.map featurePlacemarkCount).sum := by
  intro i fs
  induction fs generalizing i with
  | nil => intro _; rfl
  | cons f rest ih =>
    intro hf
    simp only [featuresKml]
    rw [countOccPm_append_safe
          (safeLeft_featureChunk hn (hf f (List.mem_cons_self _ _))),
        countOcc_featureChunk hn (hf f (List.mem_cons_self _ _)),
        ih (i + 1) (fun d hd => hf d (List.mem_cons_of_mem _ hd))]
    simp

theorem safeLeft_featuresKml {name : String} (hn : LtFree name) :
    ∀ (i : Nat) (fs : List GeoJsonFeature), (∀ f ∈ fs, PropsLtFree f) →
      SafeLeft pmChars (featuresKml name i fs).data := by
  intro i fs
  induction fs generalizing i with
  | nil => intro _; exact safeLeft_nil
  | cons f rest ih =>
    intro hf
    simp only [featuresKml]
    exact safeLeftStr_append
      (safeLeft_featureChunk hn (hf f (List.mem_cons_self _ _)))
      (ih (i + 1) (fun d hd => hf d (List.mem_cons_of_mem _ hd)))

theorem multiPointLen_of_polygon {f : GeoJsonFeature}
    (h : isPolygonFeature f = true) : multiPointLen f = 0 := by
  cases hg : f.geometry with
  | none => simp [isPolygonFeature, hg] at h
  | some g =>
    have hp : g.type = "Polygon" := by
      simpa [isPolygonFeature, hg] using h
    simp [multiPointLen, hg, hp]

theorem sum_featurePlacemarkCount (doc : GeoJsonData) :
    (doc.features.map featurePlacemarkCount).sum
      = polyCount doc + multiPointTotal doc := by
  unfold polyCount multiPointTotal
  induction doc.features with
  | nil => rfl
  | cons f rest ih =>
    by_cases hp : isPolygonFeature f
    · simp only [List.map_cons, List.sum_cons, List.filter_cons, hp, if_true,
        List.length_cons, featurePlacemarkCount, multiPointLen_of_polygon hp, ih]
      omega
    · simp only [List.map_cons, List.sum_cons, List.filter_cons, hp,
        Bool.false_eq_true, if_false, featurePlacemarkCount, ih]
      omega

/-- C1: for a `FeatureCollection` with P polygon features and MultiPoint
features holding K points in total, the output holds exactly P+K placemark
elements (occurrences of the opening placemark tag); other geometry types
contribute nothing, a non-`FeatureCollection` document yields zero
placemarks, and the converter is a total function, so no input raises an
error.  The display name and feature property strings are assumed free of
the literal markup character `'<'` (otherwise they would themselves inject
`<Placemark>` text into the unescaped output, cf. C10). -/
theorem claim_C1 (doc : GeoJsonData) (name : String) (hn : LtFree name)
    (hf : ∀ f ∈ doc.features, PropsLtFree f) :
    countOccStr "<Placemark>" (convertGeoJsonToKml doc name)
      = if doc.type = "FeatureCollection"
        then polyCount doc + multiPointTotal doc
        else 0 := by
  have hpm : ("<Placemark>" : String).data = pmChars := rfl
  unfold countOccStr convertGeoJsonToKml
  rw [hpm]
  simp only [strAppend_assoc]
  rw [countOccPm_append_safe
        (by decide : SafeLeft pmChars ("<?xml version=\"1.0\" encoding=\"UTF-8\"?>\n<kml xmlns=\"http://www.opengis.net/kml/2.2\">\n  <Document>\n    <name>" : String).data),
      countOccPm_skip hn,
      countOccPm_append_safe
        (by decide : SafeLeft pmChars ("</name>\n    <description>Converted from GeoJSON</description>\n" : String).data)]
  have c1 : countOcc pmChars ("<?xml version=\"1.0\" encoding=\"UTF-8\"?>\n<kml xmlns=\"http://www.opengis.net/kml/2.2\">\n  <Document>\n    <name>" : String).data = 0 := by decide
  have c2 : countOcc pmChars ("</name>\n    <description>Converted from GeoJSON</description>\n" : String).data = 0 := by decide
  have c3 : countOcc pmChars ("  </Document>\n</kml>" : String).data = 0 := by decide
  by_cases hfc : doc.type = "FeatureCollection"
  · rw [if_pos hfc, if_pos hfc,
        countOccPm_append_safe (safeLeft_featuresKml hn 0 doc.features hf),
        countOcc_featuresKml hn 0 doc.features hf,
        sum_featurePlacemarkCount, c1, c2, c3]
    omega
  · rw [if_neg hfc, if_neg hfc,
        countOccPm_append_safe safeLeft_nil, c1, c2, c3]
    decide

/-- C1 witness: a concrete collection with P = 2 polygons and K = 3
multipoint points yields exactly 5 placemarks, and the same features under a
non-`FeatureCollection` type yield none. -/
theorem claim_C1_witness :
    (LtFree "Field A" ∧ ∀ f ∈ witnessDoc.features, PropsLtFree f) ∧
    polyCount witnessDoc + multiPointTotal witnessDoc = 5 ∧
    countOccStr "<Placemark>" (convertGeoJsonToKml witnessDoc "Field A")
      = (if witnessDoc.type = "FeatureCollection"
         then polyCount witnessDoc + multiPointTotal witnessDoc else 0) ∧
    countOccStr "<Placemark>" (convertGeoJsonToKml witnessDocOther "Field A")
      = (if witnessDocOther.type = "FeatureCollection"
         then polyCount witnessDocOther + multiPointTotal witnessDocOther else 0) :=
  ⟨⟨by decide, by decide⟩, by decide,
    claim_C1 witnessDoc "Field A" (by decide) (by decide),
    claim_C1 witnessDocOther "Field A" (by decide) (by decide)⟩

end DFE
